import Mathlib

/-!
Verification of the g-server coordination core against its specification.

The definitions below are a shallow embedding of the C sources:
* `src/server_state_machine.c` (coordinator FSM, status fusion, watchdog),
* `src/ps5_wake.c` (wake protocol: one attempt and bounded retry),
* `src/ps5_detector.c` (IP validation, cache read, quick check),
* `src/cec_monitor.c` (power-status parsing).

Machine integers (`time_t`, `int`) are modelled as `Int`; `time(NULL)` is
passed in explicitly as a `now` parameter; out-parameters and C return codes
become explicit products; external effects (CEC subprocess calls, pings) are
modelled by oracle parameters together with explicit effect traces.
-/

namespace GServer

/-! ## Data model -/

/-- `ps5_power_state_t` from cec_monitor.h. -/
inductive Ps5PowerState where
  | unknown
  | on
  | standby
  | off
deriving DecidableEq, Repr

/-- `server_state_t` from server_state_machine.h. -/
inductive ServerState where
  | init
  | idle
  | monitoring
  | detecting
  | querying
  | waking
  | broadcasting
  | error
deriving DecidableEq, Repr

/-- `server_event_t` from server_state_machine.h. -/
inductive ServerEvent where
  | none
  | cecChange
  | clientQuery
  | wakeRequest
  | detectTimeout
  | completed
  | error
deriving DecidableEq, Repr

/-- `ps5_info_t` (declared in ps5_detector.h; fields as used throughout the
sources: ip and mac strings, last-seen timestamp, online flag). -/
structure Ps5Info where
  ip : String
  mac : String
  last_seen : Int
  online : Bool
deriving DecidableEq, Repr

/-- `ps5_status_t` from server_state_machine.h. -/
structure Ps5Status where
  cec_state : Ps5PowerState
  network_online : Bool
  info : Ps5Info
  last_update : Int
deriving DecidableEq, Repr

/-- `server_context_t` from server_state_machine.h (the callback user_data
pointer is omitted: no callback is ever stored, see the TODO in
`server_sm_set_callback`). -/
structure ServerContext where
  state : ServerState
  prev_state : ServerState
  ps5_status : Ps5Status
  state_enter_time : Int
  last_detect_time : Int
  initialized : Bool
  running : Bool
deriving DecidableEq, Repr

/-! ## Server state machine (`src/server_state_machine.c`) -/

/-- `SERVER_STATE_TIMEOUT_SEC` from server_state_machine.h. -/
def SERVER_STATE_TIMEOUT_SEC : Int := 30

/-- `SERVER_DETECT_INTERVAL_SEC` from server_state_machine.h. -/
def SERVER_DETECT_INTERVAL_SEC : Int := 60

/-- `change_state` from server_state_machine.c: records the previous state
and stamps the entry time, but only when the state actually changes. -/
def change_state (ctx : ServerContext) (new_state : ServerState) (now : Int) :
    ServerContext :=
  if ctx.state ≠ new_state then
    { ctx with prev_state := ctx.state, state := new_state,
               state_enter_time := now }
  else ctx

/-- `is_state_timeout` from server_state_machine.c. -/
def is_state_timeout (ctx : ServerContext) (now : Int) : Bool :=
  now - ctx.state_enter_time ≥ SERVER_STATE_TIMEOUT_SEC

/-- `determine_ps5_status` from server_state_machine.c (status fusion). -/
def determine_ps5_status (cec_state : Ps5PowerState) (network_online : Bool) :
    String :=
  if cec_state = .on ∧ network_online then "on"
  else if cec_state = .on ∧ ¬network_online then "starting"
  else if cec_state = .standby then "standby"
  else if cec_state = .off then "off"
  else if network_online then "on"
  else "unknown"

/-- `server_sm_init` from server_state_machine.c, for a non-null context:
zeroes the context, sets the INIT state, then transitions to IDLE and sets
the running flag. -/
def server_sm_init (now : Int) : ServerContext :=
  let ctx : ServerContext :=
    { state := .init
      prev_state := .init
      ps5_status :=
        { cec_state := .unknown
          network_online := false
          info := { ip := "", mac := "", last_seen := 0, online := false }
          last_update := now }
      state_enter_time := now
      last_detect_time := 0
      initialized := true
      running := false }
  let ctx := change_state ctx .idle now
  { ctx with running := true }

/-- `server_sm_handle_event` from server_state_machine.c: the `switch` over
the current state.  Returns the C return code together with the updated
context. -/
def server_sm_handle_event (ctx : ServerContext) (event : ServerEvent)
    (now : Int) : Int × ServerContext :=
  if ¬ctx.initialized then (-1, ctx)
  else
    match ctx.state, event with
    | .idle, .cecChange => (0, change_state ctx .monitoring now)
    | .idle, .clientQuery => (0, change_state ctx .querying now)
    | .idle, .wakeRequest => (0, change_state ctx .waking now)
    | .monitoring, .completed => (0, change_state ctx .broadcasting now)
    | .monitoring, .error => (0, change_state ctx .error now)
    | .detecting, .completed => (0, change_state ctx .idle now)
    | .detecting, .detectTimeout => (0, change_state ctx .error now)
    | .querying, .completed => (0, change_state ctx .idle now)
    | .waking, .completed => (0, change_state ctx .monitoring now)
    | .waking, .error => (0, change_state ctx .error now)
    | .broadcasting, .completed => (0, change_state ctx .idle now)
    | .error, .none => (0, change_state ctx .idle now)
    | _, _ => (0, ctx)

/-- `server_sm_update` from server_state_machine.c: watchdog check followed
by the periodic-detection check. -/
def server_sm_update (ctx : ServerContext) (now : Int) : Int × ServerContext :=
  if ¬ctx.initialized ∨ ¬ctx.running then (-1, ctx)
  else
    let ctx1 :=
      if is_state_timeout ctx now ∧
         ctx.state ≠ .idle ∧ ctx.state ≠ .error then
        change_state ctx .error now
      else ctx
    let ctx2 :=
      if ctx1.state = .idle ∧
         now - ctx1.last_detect_time ≥ SERVER_DETECT_INTERVAL_SEC then
        change_state { ctx1 with last_detect_time := now } .detecting now
      else ctx1
    (0, ctx2)

/-- `server_sm_update_cec_state` from server_state_machine.c. -/
def server_sm_update_cec_state (ctx : ServerContext)
    (cec_state : Ps5PowerState) (now : Int) : Int × ServerContext :=
  if ¬ctx.initialized then (-1, ctx)
  else if ctx.ps5_status.cec_state ≠ cec_state then
    let ctx1 :=
      { ctx with ps5_status :=
          { ctx.ps5_status with cec_state := cec_state, last_update := now } }
    if ctx1.state = .idle then
      (0, (server_sm_handle_event ctx1 .cecChange now).2)
    else (0, ctx1)
  else (0, ctx)

/-- The guard in `server_sm_update_cec_state` under which a
`SERVER_EVENT_CEC_CHANGE` is synthesized (the `server_sm_handle_event` call
happens exactly when the context is initialized, the stored value differs
and the machine is idle). -/
def cec_change_fired (ctx : ServerContext) (cec_state : Ps5PowerState) :
    Bool :=
  ctx.initialized && ctx.ps5_status.cec_state ≠ cec_state &&
    ctx.state = .idle

/-- `server_sm_get_ps5_status` from server_state_machine.c. -/
def server_sm_get_ps5_status (ctx : ServerContext) : String :=
  if ¬ctx.initialized then "unknown"
  else determine_ps5_status ctx.ps5_status.cec_state
        ctx.ps5_status.network_online

/-- `server_sm_stop` from server_state_machine.c: clears the running flag
and forces the state back to IDLE. -/
def server_sm_stop (ctx : ServerContext) (now : Int) : ServerContext :=
  change_state { ctx with running := false } .idle now

/-- The status label dictated by the priority table of spec §4.4, written
from the spec's words for comparison with `determine_ps5_status`. -/
def fusionSpecLabel (cec_state : Ps5PowerState) (network_online : Bool) :
    String :=
  match cec_state, network_online with
  | .on, true => "on"
  | .on, false => "starting"
  | .standby, _ => "standby"
  | .off, _ => "off"
  | .unknown, true => "on"
  | .unknown, false => "unknown"

/-- The transition table of spec §4.5, written from the spec's words; every
pair not listed is a no-op. -/
def specTransition (s : ServerState) (e : ServerEvent) : ServerState :=
  match s, e with
  | .idle, .cecChange => .monitoring
  | .idle, .clientQuery => .querying
  | .idle, .wakeRequest => .waking
  | .monitoring, .completed => .broadcasting
  | .monitoring, .error => .error
  | .detecting, .completed => .idle
  | .detecting, .detectTimeout => .error
  | .querying, .completed => .idle
  | .waking, .completed => .monitoring
  | .waking, .error => .error
  | .broadcasting, .completed => .idle
  | .error, .none => .idle
  | _, _ => s

/-! ## Wake protocol (`src/ps5_wake.c`) -/

/-- `wake_result_t` from ps5_wake.h. -/
inductive WakeResult where
  | success
  | timeout
  | cecError
  | verifyFailed
  | notInitialized
deriving DecidableEq, Repr

/-- Oracle for the external effects of one wake attempt: whether the CEC
image-view-on command succeeds, and the outcome of the k-th ping of the
verification loop. -/
structure AttemptEnv where
  cecOk : Bool
  ping : Nat → Bool

/-- Effect trace of one `ps5_wake` call: how many CEC wake commands were
issued and which verification polls (by loop iteration) were performed. -/
structure WakeTrace where
  cecCmds : Nat
  pings : List Nat
deriving DecidableEq, Repr

/-- The polling loop of `ps5_wake_verify` from ps5_wake.c, from iteration
`k` on: ping; on success return true; otherwise return false once the
elapsed time (one second per iteration) has reached the timeout, else
sleep one second and retry.  `r` counts the iterations left before the
elapsed-time check fires, so the caller passes `r = timeout_sec - k`; both
branches record the polls performed. -/
def verifyFrom (ping : Nat → Bool) (k : Nat) : Nat → Bool × List Nat
  | 0 => (ping k, [k])
  | r + 1 =>
    if ping k then (true, [k])
    else
      let res := verifyFrom ping (k + 1) r
      (res.1, k :: res.2)

/-- `ps5_wake_verify` from ps5_wake.c (the `ip` argument is a C array
member and never NULL when reached from `ps5_wake`, so only the
`timeout_sec <= 0` part of its guard is modelled). -/
def ps5_wake_verify (timeout_sec : Int) (ping : Nat → Bool) :
    Bool × List Nat :=
  if timeout_sec ≤ 0 then (false, [])
  else verifyFrom ping 0 timeout_sec.toNat

/-- `ps5_wake_by_cec` from ps5_wake.c: one CEC image-view-on command; a
nonzero command status maps to the error code -2.  The second component
counts CEC commands executed. -/
def ps5_wake_by_cec (initialized : Bool) (cecOk : Bool) : Int × Nat :=
  if ¬initialized then (-1, 0)
  else if cecOk then (0, 1) else (-2, 1)

/-- `ps5_wake` from ps5_wake.c: guard checks, one CEC wake command, then
bounded verification; paired with its effect trace. -/
def ps5_wake (initialized : Bool) (info : Option Ps5Info)
    (timeout_sec : Int) (env : AttemptEnv) : WakeResult × WakeTrace :=
  if ¬initialized then (.notInitialized, ⟨0, []⟩)
  else
    match info with
    | none => (.notInitialized, ⟨0, []⟩)
    | some _ =>
      if timeout_sec ≤ 0 then (.notInitialized, ⟨0, []⟩)
      else
        let cec := ps5_wake_by_cec initialized env.cecOk
        if cec.1 ≠ 0 then (.cecError, ⟨cec.2, []⟩)
        else
          let ver := ps5_wake_verify timeout_sec env.ping
          (if ver.1 then .success else .verifyFailed, ⟨cec.2, ver.2⟩)

/-- The retry loop of `ps5_wake_with_retry` from ps5_wake.c: `fuel` is the
number of attempts remaining after the current one; returns the final
result and the number of attempts performed. -/
def retryFrom (attempt : Nat → WakeResult) (i : Nat) :
    Nat → WakeResult × Nat
  | 0 => (attempt i, 1)
  | fuel + 1 =>
    let r := attempt i
    if r = .success then (r, 1)
    else
      let rest := retryFrom attempt (i + 1) fuel
      (rest.1, rest.2 + 1)

/-- `ps5_wake_with_retry` from ps5_wake.c: guard checks, coercion of a
non-positive max_retries to a single attempt, then the retry loop over
`ps5_wake` (each attempt receiving its own environment); paired with the
number of attempts performed. -/
def ps5_wake_with_retry (initialized : Bool) (info : Option Ps5Info)
    (max_retries timeout_sec : Int) (envs : Nat → AttemptEnv) :
    WakeResult × Nat :=
  if ¬initialized then (.notInitialized, 0)
  else
    match info with
    | none => (.notInitialized, 0)
    | some _ =>
      let n : Nat := if max_retries ≤ 0 then 1 else max_retries.toNat
      retryFrom (fun i => (ps5_wake initialized info timeout_sec (envs i)).1)
        0 (n - 1)

/-- The result of the i-th wake attempt inside the retry loop. -/
def wakeAttempt (info : Ps5Info) (timeout_sec : Int)
    (envs : Nat → AttemptEnv) (i : Nat) : WakeResult :=
  (ps5_wake true (some info) timeout_sec (envs i)).1

/-! ## Power-status parsing (`src/cec_monitor.c`) -/

/-- Does `pat` occur at the start of the second list? (helper for the
`strstr` calls in `parse_power_status`). -/
def charsMatchAt : List Char → List Char → Bool
  | [], _ => true
  | _ :: _, [] => false
  | p :: ps, c :: cs => p == c && charsMatchAt ps cs

/-- Does `pat` occur anywhere in the list? -/
def strstrL (pat : List Char) : List Char → Bool
  | [] => charsMatchAt pat []
  | c :: cs => charsMatchAt pat (c :: cs) || strstrL pat cs

/-- C's `strstr(haystack, needle) != NULL`: case-sensitive substring
search. -/
def strstr (haystack needle : String) : Bool :=
  strstrL needle.toList haystack.toList

/-- `parse_power_status` from cec_monitor.c: keyword matching on the raw
cec-ctl output (a NULL output is the `output == NULL` guard). -/
def parse_power_status (output : Option String) : Ps5PowerState :=
  match output with
  | none => .unknown
  | some s =>
    if strstr s "power status: on" || strstr s "pwr-state: on" then .on
    else if strstr s "power status: standby" ||
        strstr s "pwr-state: standby" then .standby
    else if strstr s "power status: off" ||
        strstr s "pwr-state: to-standby" then .off
    else .unknown

/-! ## Detection strategy (`src/ps5_detector.c` and spec §4.1) -/

/-- `ps5_detector_get_cached` from ps5_detector.c: succeeds (fills the out
parameter) iff the module is initialized and the in-memory cached record
has a nonempty ip. -/
def ps5_detector_get_cached (initialized : Bool) (cached : Ps5Info) :
    Option Ps5Info :=
  if ¬initialized then none
  else if cached.ip = "" then none
  else some cached

/-- Modelled from the spec: `PS5_CACHE_MAX_AGE`, the configured cache
max-age threshold (3600 s in the tests), is declared in ps5_detector.h,
which is not among the sources; its value is fixed by the §8 scenario
(age 100 valid, age 4000 expired with max-age 3600). -/
def PS5_CACHE_MAX_AGE : Int := 3600

/-- Modelled from the spec: tier 1 of the detection strategy — "return
cached DeviceInfo if cache age < max-age threshold" (§4.1).  The cache-age
accessor `ps5_detector_get_cache_age` (declared in ps5_detector.h, -1
meaning no cache) and the tier-selection driver are not among the sources;
the cached-record read itself is the in-source `ps5_detector_get_cached`. -/
def detect_tier1 (initialized : Bool) (cache_age : Int) (cached : Ps5Info) :
    Option Ps5Info :=
  if 0 ≤ cache_age ∧ cache_age < PS5_CACHE_MAX_AGE then
    ps5_detector_get_cached initialized cached
  else none

/-- Modelled from the spec: the tier selection of `resolve` (§4.1) — on
tier-1 failure the quick check (tier 2, whose outcome is the `tier2`
oracle) must be attempted.  The boolean records whether tier 2 was
attempted. -/
def detect_resolve (initialized : Bool) (cache_age : Int) (cached : Ps5Info)
    (tier2 : Option Ps5Info) : Option Ps5Info × Bool :=
  match detect_tier1 initialized cache_age cached with
  | some i => (some i, false)
  | none => (tier2, true)

/-! ## IP validation (`validate_ip` in `src/ps5_detector.c`)

`validate_ip` parses with `sscanf(ip, "%d.%d.%d.%d%c", ...)`.  A `%d`
conversion skips leading whitespace and accepts an optional sign followed
by decimal digits; the literal `.` matches exactly one dot; the final `%c`
succeeds (making `matched == 5`, hence rejection) exactly when any
character remains.  Overflow cannot occur because the length is capped at
15 characters before scanning. -/

/-- C's `isspace` on the default locale, as skipped by `%d`. -/
def isCSpace (c : Char) : Bool :=
  c == ' ' || c == '\t' || c == '\n' || c == '\x0b' || c == '\x0c' ||
    c == '\r'

/-- Decimal value of a digit string. -/
def digitsVal (p : List Char) : Nat :=
  p.foldl (fun a c => a * 10 + (c.toNat - 48)) 0

/-- One `%d` digit run: a maximal nonempty prefix of decimal digits. -/
def scanDigits (cs : List Char) : Option (Nat × List Char) :=
  if (cs.takeWhile Char.isDigit).isEmpty then Option.none
  else some (digitsVal (cs.takeWhile Char.isDigit),
             cs.dropWhile Char.isDigit)

/-- `%d` after the whitespace skip: optional sign, then digits. -/
def scanIntCore : List Char → Option (Int × List Char)
  | [] => Option.none
  | c :: rest =>
    if c = '+' then (scanDigits rest).map (fun nr => ((nr.1 : Int), nr.2))
    else if c = '-' then
      (scanDigits rest).map (fun nr => (-(nr.1 : Int), nr.2))
    else (scanDigits (c :: rest)).map (fun nr => ((nr.1 : Int), nr.2))

/-- One `%d` conversion of `sscanf`. -/
def scanInt (cs : List Char) : Option (Int × List Char) :=
  scanIntCore (cs.dropWhile isCSpace)

/-- The literal `.` of the scanf format. -/
def expectDot : List Char → Option (List Char)
  | '.' :: rest => some rest
  | _ => Option.none

/-- The whole `"%d.%d.%d.%d"` part of the format; the leftover input
decides the trailing `%c`. -/
def scanQuad (cs : List Char) :
    Option ((Int × Int × Int × Int) × List Char) := do
  let (a, r1) ← scanInt cs
  let r2 ← expectDot r1
  let (b, r3) ← scanInt r2
  let r4 ← expectDot r3
  let (c, r5) ← scanInt r4
  let r6 ← expectDot r5
  let (d, r7) ← scanInt r6
  return ((a, b, c, d), r7)

/-- `validate_ip` from ps5_detector.c (a NULL pointer is `none`): empty
and out-of-range lengths are rejected, then the scanf parse must match
exactly four integers with nothing left over, each within 0..255. -/
def validate_ip : Option String → Bool
  | Option.none => false
  | some s =>
    if s.toList.length = 0 then false
    else if s.toList.length < 7 ∨ 15 < s.toList.length then false
    else
      match scanQuad s.toList with
      | Option.none => false
      | some ((a, b, c, d), rest) =>
        if ¬ rest.isEmpty then false
        else if a < 0 ∨ 255 < a ∨ b < 0 ∨ 255 < b ∨ c < 0 ∨ 255 < c ∨
            d < 0 ∨ 255 < d then false
        else true

/-- Split a character list at every dot (spec-side helper). -/
def splitDots : List Char → List (List Char)
  | [] => [[]]
  | c :: rest =>
    if c = '.' then [] :: splitDots rest
    else
      match splitDots rest with
      | [] => [[c]]
      | h :: t => (c :: h) :: t

/-- Spec-side: one component of a dotted quad — a 1-to-3-digit decimal
number with value at most 255. -/
def isQuadComp (p : List Char) : Bool :=
  !p.isEmpty && p.length ≤ 3 && p.all Char.isDigit && digitsVal p ≤ 255

/-- Spec-side, from the spec's words: "four dot-separated integers each in
[0,255], with no trailing characters". -/
def isDottedQuad (s : String) : Bool :=
  match splitDots s.toList with
  | [p1, p2, p3, p4] =>
    isQuadComp p1 && isQuadComp p2 && isQuadComp p3 && isQuadComp p4
  | _ => false

/-- Concatenate components back with dots (inverse of `splitDots`). -/
def joinDots : List (List Char) → List Char
  | [] => []
  | [p] => p
  | p :: ps => p ++ '.' :: joinDots ps

/-! ## Helper lemmas -/

/-- After one `server_sm_update_cec_state` call on an initialized context
the stored value equals the argument and the context stays initialized. -/
lemma update_cec_state_sets (ctx : ServerContext) (v : Ps5PowerState)
    (now : Int) (h : ctx.initialized = true) :
    (server_sm_update_cec_state ctx v now).2.ps5_status.cec_state = v ∧
    (server_sm_update_cec_state ctx v now).2.initialized = true := by
  obtain ⟨s, ps, st, et, dt, ini, run⟩ := ctx
  simp only at h
  subst ini
  by_cases hsame : st.cec_state = v
  · simp [server_sm_update_cec_state, hsame]
  · by_cases hs : s = ServerState.idle
    · subst hs
      simp [server_sm_update_cec_state, hsame, server_sm_handle_event,
        change_state]
    · simp [server_sm_update_cec_state, hsame, hs]

lemma retryFrom_attempts_le (attempt : Nat → WakeResult) :
    ∀ (fuel i : Nat), 1 ≤ (retryFrom attempt i fuel).2 ∧
      (retryFrom attempt i fuel).2 ≤ fuel + 1 := by
  intro fuel
  induction fuel with
  | zero => intro i; simp [retryFrom]
  | succ f ih =>
    intro i
    by_cases hs : attempt i = WakeResult.success
    · simp [retryFrom, hs]
    · have := ih (i + 1)
      simp only [retryFrom, hs, if_false, if_neg hs]
      omega

lemma retryFrom_success_iff (attempt : Nat → WakeResult) :
    ∀ (fuel i : Nat), (retryFrom attempt i fuel).1 = .success ↔
      ∃ j, j ≤ fuel ∧ attempt (i + j) = .success := by
  intro fuel
  induction fuel with
  | zero =>
    intro i
    simp [retryFrom]
  | succ f ih =>
    intro i
    by_cases hs : attempt i = WakeResult.success
    · constructor
      · intro _
        exact ⟨0, by omega, by simpa using hs⟩
      · intro _
        simp [retryFrom, hs]
    · simp only [retryFrom, if_neg hs]
      rw [ih (i + 1)]
      constructor
      · rintro ⟨j, hj, hsucc⟩
        exact ⟨j + 1, by omega, by
          have : i + 1 + j = i + (j + 1) := by omega
          rwa [this] at hsucc⟩
      · rintro ⟨j, hj, hsucc⟩
        match j with
        | 0 => exact absurd (by simpa using hsucc) hs
        | j' + 1 =>
          exact ⟨j', by omega, by
            have : i + (j' + 1) = i + 1 + j' := by omega
            rwa [this] at hsucc⟩

lemma retryFrom_all_fail (attempt : Nat → WakeResult) :
    ∀ (fuel i : Nat), (∀ j, j ≤ fuel → attempt (i + j) ≠ .success) →
      retryFrom attempt i fuel = (attempt (i + fuel), fuel + 1) := by
  intro fuel
  induction fuel with
  | zero =>
    intro i _
    simp [retryFrom]
  | succ f ih =>
    intro i h
    have h0 : attempt i ≠ WakeResult.success := by
      have := h 0 (by omega)
      simpa using this
    have hrest := ih (i + 1) (fun j hj => by
      have := h (j + 1) (by omega)
      have heq : i + (j + 1) = i + 1 + j := by omega
      rwa [heq] at this)
    simp only [retryFrom, if_neg h0, hrest]
    have : i + 1 + f = i + (f + 1) := by omega
    rw [this]

lemma max_retries_coerce (mr : Int) :
    (if mr ≤ 0 then 1 else mr.toNat) = (max mr 1).toNat := by
  rcases le_or_lt mr 0 with h | h
  · have : max mr 1 = 1 := by
      apply max_eq_right
      omega
    simp [h, this]
  · have hn : ¬ mr ≤ 0 := by omega
    have : max mr 1 = mr := by
      apply max_eq_left
      omega
    simp [hn, this]

lemma verifyFrom_true_iff (ping : Nat → Bool) :
    ∀ (r k : Nat), (verifyFrom ping k r).1 = true ↔
      ∃ j, k ≤ j ∧ j ≤ k + r ∧ ping j = true := by
  intro r
  induction r with
  | zero =>
    intro k
    constructor
    · intro h
      exact ⟨k, le_refl k, by omega, by simpa [verifyFrom] using h⟩
    · rintro ⟨j, h1, h2, h3⟩
      have : j = k := by omega
      subst this
      simpa [verifyFrom] using h3
  | succ r ih =>
    intro k
    by_cases hp : ping k = true
    · constructor
      · intro _
        exact ⟨k, le_refl k, by omega, hp⟩
      · intro _
        simp [verifyFrom, hp]
    · simp only [verifyFrom, if_neg hp]
      rw [ih (k + 1)]
      constructor
      · rintro ⟨j, h1, h2, h3⟩
        exact ⟨j, by omega, by omega, h3⟩
      · rintro ⟨j, h1, h2, h3⟩
        rcases Nat.eq_or_lt_of_le h1 with heq | hlt
        · subst heq
          exact absurd h3 hp
        · exact ⟨j, by omega, by omega, h3⟩

lemma splitDots_ne_nil : ∀ cs : List Char, splitDots cs ≠ [] := by
  intro cs
  cases cs with
  | nil => simp [splitDots]
  | cons c rest =>
    by_cases hc : c = '.'
    · simp [splitDots, hc]
    · cases hrec : splitDots rest with
      | nil => simp [splitDots, hc, hrec]
      | cons h t => simp [splitDots, hc, hrec]

lemma joinDots_cons_cons (c : Char) (h : List Char) (t : List (List Char)) :
    joinDots ((c :: h) :: t) = c :: joinDots (h :: t) := by
  cases t <;> rfl

lemma splitDots_join : ∀ cs : List Char, joinDots (splitDots cs) = cs := by
  intro cs
  induction cs with
  | nil => rfl
  | cons c rest ih =>
    by_cases hc : c = '.'
    · subst hc
      cases hrec : splitDots rest with
      | nil => exact absurd hrec (splitDots_ne_nil rest)
      | cons h t =>
        rw [hrec] at ih
        simp only [splitDots, if_pos rfl, hrec]
        show ([] : List Char) ++ '.' :: joinDots (h :: t) = '.' :: rest
        simp [ih]
    · cases hrec : splitDots rest with
      | nil => exact absurd hrec (splitDots_ne_nil rest)
      | cons h t =>
        rw [hrec] at ih
        have hsp : splitDots (c :: rest) = (c :: h) :: t := by
          simp [splitDots, hrec, hc]
        rw [hsp, joinDots_cons_cons, ih]

lemma digit_not_space (c : Char) (h : c.isDigit = true) :
    isCSpace c = false := by
  have h0 : c ≠ ' ' := by rintro rfl; exact absurd h (by decide)
  have h1 : c ≠ '\t' := by rintro rfl; exact absurd h (by decide)
  have h2 : c ≠ '\n' := by rintro rfl; exact absurd h (by decide)
  have h3 : c ≠ '\x0b' := by rintro rfl; exact absurd h (by decide)
  have h4 : c ≠ '\x0c' := by rintro rfl; exact absurd h (by decide)
  have h5 : c ≠ '\r' := by rintro rfl; exact absurd h (by decide)
  simp [isCSpace, h0, h1, h2, h3, h4, h5]

lemma digit_not_sign (c : Char) (h : c.isDigit = true) :
    c ≠ '+' ∧ c ≠ '-' := by
  constructor
  · rintro rfl; exact absurd h (by decide)
  · rintro rfl; exact absurd h (by decide)

lemma takeWhile_digits_append (p : List Char) :
    ∀ rest : List Char, p.all Char.isDigit = true →
      (∀ c ∈ rest.head?, c.isDigit = false) →
      (p ++ rest).takeWhile Char.isDigit = p ∧
      (p ++ rest).dropWhile Char.isDigit = rest := by
  induction p with
  | nil =>
    intro rest _ hrest
    cases rest with
    | nil => simp
    | cons c cs =>
      have hc : c.isDigit = false := hrest c (by simp)
      simp [List.takeWhile_cons, List.dropWhile_cons, hc]
  | cons c p ih =>
    intro rest hall hrest
    simp only [List.all_cons, Bool.and_eq_true] at hall
    have hrec := ih rest hall.2 hrest
    simp [List.takeWhile_cons, List.dropWhile_cons, hall.1, hrec.1, hrec.2]

lemma scanDigits_spec (p rest : List Char) (hne : p ≠ [])
    (hall : p.all Char.isDigit = true)
    (hrest : ∀ c ∈ rest.head?, c.isDigit = false) :
    scanDigits (p ++ rest) = some (digitsVal p, rest) := by
  have h := takeWhile_digits_append p rest hall hrest
  simp [scanDigits, h.1, h.2, hne]

lemma scanInt_spec (p rest : List Char) (hne : p ≠ [])
    (hall : p.all Char.isDigit = true)
    (hrest : ∀ c ∈ rest.head?, c.isDigit = false) :
    scanInt (p ++ rest) = some ((digitsVal p : Int), rest) := by
  obtain ⟨c, p', rfl⟩ : ∃ c p', p = c :: p' := by
    cases p with
    | nil => exact absurd rfl hne
    | cons c p' => exact ⟨c, p', rfl⟩
  simp only [List.all_cons, Bool.and_eq_true] at hall
  have hdrop : ((c :: p') ++ rest).dropWhile isCSpace =
      (c :: p') ++ rest := by
    simp [List.dropWhile_cons, digit_not_space c hall.1]
  have hsign := digit_not_sign c hall.1
  rw [scanInt, hdrop]
  show scanIntCore (c :: (p' ++ rest)) = _
  rw [scanIntCore]
  rw [if_neg hsign.1, if_neg hsign.2]
  have : c :: (p' ++ rest) = (c :: p') ++ rest := rfl
  rw [this, scanDigits_spec (c :: p') rest (by simp)
    (by simp [hall.1, hall.2]) hrest]
  rfl

lemma isQuadComp_props (p : List Char) (h : isQuadComp p = true) :
    p ≠ [] ∧ p.length ≤ 3 ∧ p.all Char.isDigit = true ∧
      digitsVal p ≤ 255 := by
  simp only [isQuadComp, Bool.and_eq_true, Bool.not_eq_true',
    decide_eq_true_eq] at h
  obtain ⟨⟨⟨hne, hlen⟩, hall⟩, hval⟩ := h
  refine ⟨?_, hlen, hall, hval⟩
  intro hnil
  subst hnil
  simp at hne

lemma head_dot_not_digit (r : List Char) :
    ∀ c ∈ (('.' :: r : List Char)).head?, c.isDigit = false := by
  intro c hc
  simp only [List.head?_cons, Option.mem_def, Option.some.injEq] at hc
  subst hc
  decide

lemma scanQuad_spec (p1 p2 p3 p4 : List Char)
    (h1ne : p1 ≠ []) (h1all : p1.all Char.isDigit = true)
    (h2ne : p2 ≠ []) (h2all : p2.all Char.isDigit = true)
    (h3ne : p3 ≠ []) (h3all : p3.all Char.isDigit = true)
    (h4ne : p4 ≠ []) (h4all : p4.all Char.isDigit = true) :
    scanQuad (p1 ++ '.' :: (p2 ++ '.' :: (p3 ++ '.' :: p4))) =
      some (((digitsVal p1 : Int), (digitsVal p2 : Int),
             (digitsVal p3 : Int), (digitsVal p4 : Int)), []) := by
  have e1 := scanInt_spec p1 ('.' :: (p2 ++ '.' :: (p3 ++ '.' :: p4)))
    h1ne h1all (head_dot_not_digit _)
  have e2 := scanInt_spec p2 ('.' :: (p3 ++ '.' :: p4))
    h2ne h2all (head_dot_not_digit _)
  have e3 := scanInt_spec p3 ('.' :: p4) h3ne h3all (head_dot_not_digit _)
  have e4 : scanInt p4 = some ((digitsVal p4 : Int), []) := by
    have := scanInt_spec p4 [] h4ne h4all (by intro c hc; simp at hc)
    simpa using this
  simp [scanQuad, e1, e2, e3, e4, expectDot]

/-! ## Claim theorems -/

/-- C1: for every CEC power state combined with both online booleans the
status-fusion function returns exactly the label of the §4.4 priority
table, and for an initialized context `server_sm_get_ps5_status` reports
that fused label. -/
theorem determine_ps5_status_matches_priority_table
    (cec : Ps5PowerState) (b : Bool) (ctx : ServerContext)
    (h : ctx.initialized = true) :
    determine_ps5_status cec b = fusionSpecLabel cec b ∧
    server_sm_get_ps5_status ctx =
      fusionSpecLabel ctx.ps5_status.cec_state ctx.ps5_status.network_online
    := by
  constructor
  · cases cec <;> cases b <;> rfl
  · have h1 : ∀ c pb, determine_ps5_status c pb = fusionSpecLabel c pb := by
      intro c pb
      cases c <;> cases pb <;> rfl
    simp [server_sm_get_ps5_status, h, h1]

/-- Witness for C1 at a concrete initialized context. -/
theorem determine_ps5_status_matches_priority_table_witness :
    determine_ps5_status .on true = "on" ∧
    server_sm_get_ps5_status (server_sm_init 0) = "unknown" := by
  have h := determine_ps5_status_matches_priority_table .on true
    (server_sm_init 0) (by decide)
  exact ⟨h.1, h.2⟩

/-- C2: for every initialized context, `server_sm_handle_event` moves the
state exactly as the §4.5 transition table dictates, returns 0, and every
(state, event) pair the table leaves in place is a complete no-op on the
context. -/
theorem handle_event_matches_transition_table
    (ctx : ServerContext) (e : ServerEvent) (now : Int)
    (h : ctx.initialized = true) :
    (server_sm_handle_event ctx e now).2.state = specTransition ctx.state e ∧
    (specTransition ctx.state e = ctx.state →
      (server_sm_handle_event ctx e now).2 = ctx) ∧
    (server_sm_handle_event ctx e now).1 = 0 := by
  obtain ⟨s, ps, st, et, dt, ini, run⟩ := ctx
  simp only at h
  subst ini
  cases s <;> cases e <;>
    simp [server_sm_handle_event, specTransition, change_state]

/-- Witness for C2: a CEC change in the idle state enters Monitoring. -/
theorem handle_event_matches_transition_table_witness :
    (server_sm_handle_event (server_sm_init 0) .cecChange 5).2.state =
      ServerState.monitoring ∧
    (server_sm_handle_event (server_sm_init 0) .completed 5).2 =
      server_sm_init 0 := by
  have h1 := handle_event_matches_transition_table (server_sm_init 0)
    .cecChange 5 (by decide)
  have h2 := handle_event_matches_transition_table (server_sm_init 0)
    .completed 5 (by decide)
  exact ⟨h1.1, h2.2.1 (by decide)⟩

/-- C3: for an initialized, running context, the periodic update
force-transitions to Error any state other than Idle/Error that has been
held longer than `SERVER_STATE_TIMEOUT_SEC`; the watchdog never moves the
machine out of Idle (only the periodic-detection rule may enter Detecting)
or out of Error, and an event moves the machine out of Error exactly when
it is the None event, which leads to Idle. -/
theorem update_watchdog_spec (ctx : ServerContext) (now : Int)
    (hI : ctx.initialized = true) (hR : ctx.running = true) :
    (ctx.state ≠ .idle → ctx.state ≠ .error →
      SERVER_STATE_TIMEOUT_SEC < now - ctx.state_enter_time →
      (server_sm_update ctx now).2.state = .error) ∧
    (ctx.state = .idle →
      (server_sm_update ctx now).2.state = .idle ∨
      (server_sm_update ctx now).2.state = .detecting) ∧
    (ctx.state = .error → server_sm_update ctx now = (0, ctx)) ∧
    (ctx.state = .error → ∀ (e : ServerEvent) (t : Int),
      (server_sm_handle_event ctx e t).2.state =
        (if e = .none then .idle else .error)) := by
  refine ⟨?_, ?_, ?_, ?_⟩
  · intro h1 h2 h3
    have htime : is_state_timeout ctx now = true := by
      simp only [SERVER_STATE_TIMEOUT_SEC] at h3
      simp only [is_state_timeout, SERVER_STATE_TIMEOUT_SEC, ge_iff_le,
        decide_eq_true_eq]
      omega
    have hchg : change_state ctx .error now =
        { ctx with prev_state := ctx.state, state := .error,
                   state_enter_time := now } := by
      simp [change_state, h2]
    simp [server_sm_update, hI, hR, htime, h1, h2, hchg]
  · intro h1
    by_cases hdet :
        ServerContext.state ctx = ServerState.idle ∧
        SERVER_DETECT_INTERVAL_SEC ≤ now - ctx.last_detect_time
    · right
      simp [server_sm_update, hI, hR, h1, hdet.2, change_state]
    · left
      have : ¬ SERVER_DETECT_INTERVAL_SEC ≤ now - ctx.last_detect_time := by
        intro hc
        exact hdet ⟨h1, hc⟩
      simp [server_sm_update, hI, hR, h1, this]
  · intro h1
    simp [server_sm_update, hI, hR, h1]
  · intro h1 e t
    obtain ⟨s, ps, st, et, dt, ini, run⟩ := ctx
    simp only at h1 hI
    subst h1
    subst ini
    cases e <;> simp [server_sm_handle_event, change_state]

/-- Witness for C3: a context stuck in Monitoring for 31 seconds is forced
to Error, and Error is healed only by the None event. -/
theorem update_watchdog_spec_witness :
    (server_sm_update
      ((server_sm_handle_event (server_sm_init 0) .cecChange 0).2) 31).2.state
      = ServerState.error ∧
    (server_sm_handle_event
      { server_sm_init 0 with state := .error } .none 40).2.state =
      ServerState.idle ∧
    (server_sm_handle_event
      { server_sm_init 0 with state := .error } .completed 40).2.state =
      ServerState.error := by
  have h1 := update_watchdog_spec
    ((server_sm_handle_event (server_sm_init 0) .cecChange 0).2) 31
    (by decide) (by decide)
  have h2 := update_watchdog_spec
    { server_sm_init 0 with state := .error } 0 (by decide) (by decide)
  refine ⟨h1.1 (by decide) (by decide) (by decide), ?_, ?_⟩
  · have := h2.2.2.2 (by decide) .none 40
    simpa using this
  · have := h2.2.2.2 (by decide) .completed 40
    simpa using this

/-- C4: `server_sm_update_cec_state` is idempotent on repeated identical
values: after a first call with value `v`, a second call with the same `v`
returns 0 and leaves the whole context (stored cec_state, last-update
timestamp, FSM state) unchanged, and the guard that synthesizes the
CecChange event does not fire on the second call (no callback is stored in
this version, so no observer can fire either). -/
theorem update_cec_state_idempotent (ctx : ServerContext)
    (v : Ps5PowerState) (now1 now2 : Int) (h : ctx.initialized = true) :
    server_sm_update_cec_state
        (server_sm_update_cec_state ctx v now1).2 v now2 =
      (0, (server_sm_update_cec_state ctx v now1).2) ∧
    cec_change_fired (server_sm_update_cec_state ctx v now1).2 v = false := by
  have hstate := update_cec_state_sets ctx v now1 h
  set c1 := (server_sm_update_cec_state ctx v now1).2 with hc1
  constructor
  · simp [server_sm_update_cec_state, hstate.1, hstate.2]
  · simp [cec_change_fired, hstate.1]

/-- Witness for C4: a second identical CEC update on a freshly initialized
context is a no-op. -/
theorem update_cec_state_idempotent_witness :
    server_sm_update_cec_state
        (server_sm_update_cec_state (server_sm_init 0) .on 1).2 .on 2 =
      (0, (server_sm_update_cec_state (server_sm_init 0) .on 1).2) := by
  exact (update_cec_state_idempotent (server_sm_init 0) .on 1 2 (by decide)).1

/-- C5: for a non-null DeviceInfo, a positive timeout and an initialized
module, `ps5_wake_with_retry` performs between 1 and `max(maxRetries,1)`
attempts of `ps5_wake`, with a zero (or negative) maxRetries coerced to
exactly one attempt — in particular retry counts 0 and 5 behave exactly
like retry counts 1 and 5 — short-circuits with Success exactly when some
attempt within the bound succeeds, and returns the last attempt's result
when all attempts fail. -/
theorem wake_with_retry_spec (info : Ps5Info) (envs : Nat → AttemptEnv)
    (mr t : Int) (ht : 0 < t) :
    (1 ≤ (ps5_wake_with_retry true (some info) mr t envs).2 ∧
      (ps5_wake_with_retry true (some info) mr t envs).2 ≤
        (max mr 1).toNat) ∧
    ps5_wake_with_retry true (some info) 0 5 envs =
      ps5_wake_with_retry true (some info) 1 5 envs ∧
    ((ps5_wake_with_retry true (some info) mr t envs).1 = .success ↔
      ∃ j, j < (max mr 1).toNat ∧ wakeAttempt info t envs j = .success) ∧
    ((∀ j, j < (max mr 1).toNat → wakeAttempt info t envs j ≠ .success) →
      (ps5_wake_with_retry true (some info) mr t envs).1 =
        wakeAttempt info t envs ((max mr 1).toNat - 1)) := by
  have hpos : 1 ≤ (max mr 1).toNat := by
    have h1 : (1 : Int) ≤ max mr 1 := le_max_right mr 1
    omega
  have hunfold : ps5_wake_with_retry true (some info) mr t envs =
      retryFrom (wakeAttempt info t envs) 0 ((max mr 1).toNat - 1) := by
    simp only [ps5_wake_with_retry, Bool.not_true, Bool.false_eq_true,
      if_false, max_retries_coerce]
    rfl
  refine ⟨?_, ?_, ?_, ?_⟩
  · rw [hunfold]
    have := retryFrom_attempts_le (wakeAttempt info t envs)
      ((max mr 1).toNat - 1) 0
    omega
  · simp only [ps5_wake_with_retry]
    norm_num
  · rw [hunfold, retryFrom_success_iff]
    constructor
    · rintro ⟨j, hj, hs⟩
      exact ⟨j, by omega, by simpa using hs⟩
    · rintro ⟨j, hj, hs⟩
      exact ⟨j, by omega, by simpa using hs⟩
  · intro hall
    rw [hunfold, retryFrom_all_fail]
    · simp
    · intro j hj
      have := hall j (by omega)
      simpa using this

/-- Witness for C5: with permanently successful attempts, retrying 3 times
stays within the attempt bound and reports Success. -/
theorem wake_with_retry_spec_witness :
    (0 : Int) < 5 ∧
    (ps5_wake_with_retry true
      (some { ip := "192.168.1.100", mac := "AA:BB:CC:DD:EE:FF",
              last_seen := 0, online := true })
      3 5 (fun _ => ⟨true, fun _ => true⟩)).1 = WakeResult.success := by
  refine ⟨by decide, ?_⟩
  have h := wake_with_retry_spec
    { ip := "192.168.1.100", mac := "AA:BB:CC:DD:EE:FF",
      last_seen := 0, online := true }
    (fun _ => ⟨true, fun _ => true⟩) 3 5 (by decide)
  exact h.2.2.1.mpr ⟨0, by decide, by decide⟩

/-- C6: `ps5_wake` returns NotInitialized with an empty effect trace when
the module is uninitialized, the DeviceInfo is null, or the timeout is not
positive; with a valid call it returns CecError after exactly one CEC
command and no verification poll when the CEC command fails, and otherwise
returns Success exactly when some poll within the timeout confirms
presence, returning VerifyFailed when none does. -/
theorem ps5_wake_guards_and_outcomes (info : Ps5Info) (env : AttemptEnv)
    (t : Int) :
    (∀ anyInfo : Option Ps5Info,
      ps5_wake false anyInfo t env = (.notInitialized, ⟨0, []⟩)) ∧
    ps5_wake true none t env = (.notInitialized, ⟨0, []⟩) ∧
    (t ≤ 0 → ps5_wake true (some info) t env = (.notInitialized, ⟨0, []⟩)) ∧
    (0 < t → env.cecOk = false →
      ps5_wake true (some info) t env = (.cecError, ⟨1, []⟩)) ∧
    (0 < t → env.cecOk = true →
      ((ps5_wake true (some info) t env).1 = .success ↔
        ∃ j, j ≤ t.toNat ∧ env.ping j = true)) ∧
    (0 < t → env.cecOk = true → (∀ j, j ≤ t.toNat → env.ping j = false) →
      (ps5_wake true (some info) t env).1 = .verifyFailed) := by
  have hver : 0 < t →
      ((ps5_wake_verify t env.ping).1 = true ↔
        ∃ j, j ≤ t.toNat ∧ env.ping j = true) := by
    intro htpos
    have hneg : ¬ t ≤ 0 := by omega
    simp only [ps5_wake_verify, if_neg hneg]
    rw [verifyFrom_true_iff]
    constructor
    · rintro ⟨j, _, h2, h3⟩
      exact ⟨j, by omega, h3⟩
    · rintro ⟨j, h1, h2⟩
      exact ⟨j, by omega, by omega, h2⟩
  have hmain : 0 < t → env.cecOk = true →
      ps5_wake true (some info) t env =
        (if (ps5_wake_verify t env.ping).1 then WakeResult.success
         else WakeResult.verifyFailed,
         ⟨1, (ps5_wake_verify t env.ping).2⟩) := by
    intro htpos hcec
    have hneg : ¬ t ≤ 0 := by omega
    simp [ps5_wake, hneg, ps5_wake_by_cec, hcec]
  refine ⟨?_, ?_, ?_, ?_, ?_, ?_⟩
  · intro anyInfo
    simp [ps5_wake]
  · simp [ps5_wake]
  · intro hle
    simp [ps5_wake, hle]
  · intro htpos hcec
    have hneg : ¬ t ≤ 0 := by omega
    simp [ps5_wake, hneg, ps5_wake_by_cec, hcec]
  · intro htpos hcec
    rw [hmain htpos hcec]
    cases hb : (ps5_wake_verify t env.ping).1 with
    | true =>
      simp only [if_true]
      constructor
      · intro _
        exact (hver htpos).mp hb
      · intro _
        trivial
    | false =>
      simp only [Bool.false_eq_true, if_false]
      constructor
      · intro h
        exact absurd h (by decide)
      · intro hex
        exact absurd ((hver htpos).mpr hex) (by simp [hb])
  · intro htpos hcec hall
    have hv : (ps5_wake_verify t env.ping).1 = false := by
      cases hb : (ps5_wake_verify t env.ping).1 with
      | false => rfl
      | true =>
        obtain ⟨j, hj, hpj⟩ := (hver htpos).mp hb
        rw [hall j hj] at hpj
        exact absurd hpj (by simp)
    rw [hmain htpos hcec, hv]
    simp

/-- Witness for C6: a failing CEC command on a valid call yields CecError
with one CEC command and no verification poll. -/
theorem ps5_wake_guards_and_outcomes_witness :
    ps5_wake true
      (some { ip := "192.168.1.100", mac := "AA:BB:CC:DD:EE:FF",
              last_seen := 0, online := true })
      5 ⟨false, fun _ => false⟩ =
      (WakeResult.cecError, ⟨1, []⟩) := by
  exact (ps5_wake_guards_and_outcomes
    { ip := "192.168.1.100", mac := "AA:BB:CC:DD:EE:FF",
      last_seen := 0, online := true }
    ⟨false, fun _ => false⟩ 5).2.2.2.1 (by decide) rfl

/-- C7 counterexample: `validate_ip` accepts scanf-lenient strings —
an embedded space after a dot, a leading space, a plus sign — that are not
"four dot-separated integers each in [0,255] with no trailing characters",
so the claimed exact characterization fails. -/
theorem validate_ip_lenient_counterexample :
    validate_ip (some "1. 2.3.4") = true ∧
      isDottedQuad "1. 2.3.4" = false ∧
    validate_ip (some " 1.2.3.4") = true ∧
      isDottedQuad " 1.2.3.4" = false ∧
    validate_ip (some "+1.2.3.4") = true ∧
      isDottedQuad "+1.2.3.4" = false := by
  refine ⟨by decide, by decide, by decide, by decide, by decide, by decide⟩

/-- C7 (amended): `validate_ip` accepts every string that is four
dot-separated 1-to-3-digit decimal integers each in [0,255] with no
trailing characters, and in addition some scanf-lenient variants of such
strings (leading/embedded whitespace or signs before a number); it accepts
"0.0.0.0" and "255.255.255.255" and rejects "256.0.0.1", "1.2.3",
"1.2.3.4.5", the empty string, and NULL. -/
theorem validate_ip_amended (s : String) (h : isDottedQuad s = true) :
    validate_ip (some s) = true ∧
    validate_ip (some "0.0.0.0") = true ∧
    validate_ip (some "255.255.255.255") = true ∧
    validate_ip (some "256.0.0.1") = false ∧
    validate_ip (some "1.2.3") = false ∧
    validate_ip (some "1.2.3.4.5") = false ∧
    validate_ip (some "") = false ∧
    validate_ip Option.none = false := by
  refine ⟨?_, by decide, by decide, by decide, by decide, by decide,
    by decide, rfl⟩
  unfold isDottedQuad at h
  split at h
  case h_2 => exact absurd h (by simp)
  case h_1 p1 p2 p3 p4 heq =>
    simp only [Bool.and_eq_true] at h
    obtain ⟨h1ne, h1len, h1all, h1val⟩ := isQuadComp_props p1 h.1.1.1
    obtain ⟨h2ne, h2len, h2all, h2val⟩ := isQuadComp_props p2 h.1.1.2
    obtain ⟨h3ne, h3len, h3all, h3val⟩ := isQuadComp_props p3 h.1.2
    obtain ⟨h4ne, h4len, h4all, h4val⟩ := isQuadComp_props p4 h.2
    have hs : s.toList =
        p1 ++ '.' :: (p2 ++ '.' :: (p3 ++ '.' :: p4)) := by
      have := splitDots_join s.toList
      rw [heq] at this
      rw [← this]
      simp [joinDots]
    have h1pos : 1 ≤ p1.length := List.length_pos.mpr h1ne
    have h2pos : 1 ≤ p2.length := List.length_pos.mpr h2ne
    have h3pos : 1 ≤ p3.length := List.length_pos.mpr h3ne
    have h4pos : 1 ≤ p4.length := List.length_pos.mpr h4ne
    have hlen : s.toList.length =
        p1.length + p2.length + p3.length + p4.length + 3 := by
      rw [hs]
      simp [List.length_append]
      omega
    have hq := scanQuad_spec p1 p2 p3 p4 h1ne h1all h2ne h2all h3ne h3all
      h4ne h4all
    have hv1 : ¬ ((digitsVal p1 : Int) < 0 ∨ 255 < (digitsVal p1 : Int) ∨
        (digitsVal p2 : Int) < 0 ∨ 255 < (digitsVal p2 : Int) ∨
        (digitsVal p3 : Int) < 0 ∨ 255 < (digitsVal p3 : Int) ∨
        (digitsVal p4 : Int) < 0 ∨ 255 < (digitsVal p4 : Int)) := by
      push_neg
      refine ⟨by positivity, by exact_mod_cast h1val,
        by positivity, by exact_mod_cast h2val,
        by positivity, by exact_mod_cast h3val,
        by positivity, by exact_mod_cast h4val⟩
    have hlen0 : ¬ s.toList.length = 0 := by omega
    have hlenrange : ¬ (s.toList.length < 7 ∨ 15 < s.toList.length) := by
      push_neg
      omega
    simp only [validate_ip, if_neg hlen0, if_neg hlenrange]
    rw [hs, hq]
    simp [hv1]
    exact ⟨h1val, h2val, h3val, h4val⟩

/-- Witness for C7 (amended) at the concrete dotted quad "10.0.0.7". -/
theorem validate_ip_amended_witness :
    isDottedQuad "10.0.0.7" = true ∧
    validate_ip (some "10.0.0.7") = true := by
  refine ⟨by decide, ?_⟩
  exact (validate_ip_amended "10.0.0.7" (by decide)).1

/-- C8: with a nonempty cached record, tier-1 returns the cached
DeviceInfo exactly for cache ages below the max-age threshold and tier 2
is not attempted; for ages above the threshold tier-1 fails and tier 2 is
attempted.  Concretely, age 100 (max-age 3600) hits the cache and age 4000
does not. -/
theorem detection_tier1_cache_age_gate (cached : Ps5Info)
    (tier2 : Option Ps5Info) (age : Int) (h : cached.ip ≠ "") :
    (0 ≤ age → age < PS5_CACHE_MAX_AGE →
      detect_resolve true age cached tier2 = (some cached, false)) ∧
    (PS5_CACHE_MAX_AGE < age →
      detect_resolve true age cached tier2 = (tier2, true)) ∧
    detect_resolve true 100 cached tier2 = (some cached, false) ∧
    detect_resolve true 4000 cached tier2 = (tier2, true) := by
  have hfresh : ∀ a : Int, 0 ≤ a → a < PS5_CACHE_MAX_AGE →
      detect_resolve true a cached tier2 = (some cached, false) := by
    intro a h1 h2
    simp [detect_resolve, detect_tier1, ps5_detector_get_cached, h1, h2, h]
  have hstale : ∀ a : Int, PS5_CACHE_MAX_AGE < a →
      detect_resolve true a cached tier2 = (tier2, true) := by
    intro a h1
    have : ¬ (0 ≤ a ∧ a < PS5_CACHE_MAX_AGE) := by
      simp only [PS5_CACHE_MAX_AGE] at h1 ⊢
      omega
    simp [detect_resolve, detect_tier1, this]
  exact ⟨hfresh age, hstale age,
    hfresh 100 (by decide) (by decide), hstale 4000 (by decide)⟩

/-- Witness for C8 at a concrete cached record. -/
theorem detection_tier1_cache_age_gate_witness :
    detect_resolve true 100
        { ip := "192.168.1.100", mac := "AA:BB:CC:DD:EE:FF",
          last_seen := 0, online := true } Option.none =
      (some { ip := "192.168.1.100", mac := "AA:BB:CC:DD:EE:FF",
              last_seen := 0, online := true }, false) ∧
    detect_resolve true 4000
        { ip := "192.168.1.100", mac := "AA:BB:CC:DD:EE:FF",
          last_seen := 0, online := true } Option.none =
      (Option.none, true) := by
  have h := detection_tier1_cache_age_gate
    { ip := "192.168.1.100", mac := "AA:BB:CC:DD:EE:FF",
      last_seen := 0, online := true } Option.none 100 (by decide)
  have h4 := detection_tier1_cache_age_gate
    { ip := "192.168.1.100", mac := "AA:BB:CC:DD:EE:FF",
      last_seen := 0, online := true } Option.none 4000 (by decide)
  exact ⟨h.2.2.1, h4.2.2.2⟩

/-- C9 counterexample: the claim says output containing "active source"
parses to On and output containing "inactive source" parses to Standby,
but `parse_power_status` recognizes neither keyword and returns Unknown on
both. -/
theorem parse_power_status_active_source_counterexample :
    parse_power_status (some "active source") = .unknown ∧
    parse_power_status (some "active source") ≠ .on ∧
    parse_power_status (some "inactive source") = .unknown ∧
    parse_power_status (some "inactive source") ≠ .standby := by
  refine ⟨by decide, by decide, by decide, by decide⟩

/-- C9 (amended): the parser maps free text to the four-valued enum by
case-sensitive substring matching with On-keywords taking precedence over
Standby-keywords and those over Off-keywords: "power status: on" (or
"pwr-state: on") parses to On; "pwr-state: standby" parses to Standby when
no On-keyword is present; output containing none of the six recognized
keywords — "active source" and "inactive source" are not recognized —
parses to Unknown, as does a NULL output or an upper-cased keyword. -/
theorem parse_power_status_amended (s : String) :
    (strstr s "power status: on" = true →
      parse_power_status (some s) = .on) ∧
    (strstr s "power status: on" = false →
      strstr s "pwr-state: on" = false →
      strstr s "pwr-state: standby" = true →
      parse_power_status (some s) = .standby) ∧
    (strstr s "power status: on" = false →
      strstr s "pwr-state: on" = false →
      strstr s "power status: standby" = false →
      strstr s "pwr-state: standby" = false →
      strstr s "power status: off" = false →
      strstr s "pwr-state: to-standby" = false →
      parse_power_status (some s) = .unknown) ∧
    parse_power_status (Option.none) = .unknown ∧
    parse_power_status (some "POWER STATUS: ON") = .unknown := by
  refine ⟨?_, ?_, ?_, rfl, by decide⟩
  · intro h1
    simp [parse_power_status, h1]
  · intro h1 h2 h3
    simp [parse_power_status, h1, h2, h3]
  · intro h1 h2 h3 h4 h5 h6
    simp [parse_power_status, h1, h2, h3, h4, h5, h6]

/-- Witness for C9 (amended) on a concrete cec-ctl output line. -/
theorem parse_power_status_amended_witness :
    strstr "\tpower status: on\n" "power status: on" = true ∧
    parse_power_status (some "\tpower status: on\n") = .on := by
  refine ⟨by decide, ?_⟩
  exact (parse_power_status_amended "\tpower status: on\n").1 (by decide)

/-- C10: `server_sm_stop` always clears the running flag and forces the
state to Idle (not Error), and every subsequent `server_sm_update` call
returns -1 and leaves the stopped context unchanged. -/
theorem stop_forces_idle_and_disables_update
    (ctx : ServerContext) (now now2 : Int) :
    (server_sm_stop ctx now).running = false ∧
    (server_sm_stop ctx now).state = .idle ∧
    server_sm_update (server_sm_stop ctx now) now2 =
      (-1, server_sm_stop ctx now) := by
  have hstop : (server_sm_stop ctx now).running = false ∧
      (server_sm_stop ctx now).state = .idle := by
    by_cases hidle : ctx.state = ServerState.idle
    · simp [server_sm_stop, change_state, hidle]
    · simp [server_sm_stop, change_state, hidle]
  refine ⟨hstop.1, hstop.2, ?_⟩
  simp [server_sm_update, hstop.1]

end GServer
